import Mathlib

/-!
# Verification of the CommitAI planner/scheduler core

Shallow embedding of the plan-refinement loop and deterministic interval
scheduler of `commitAI/backend/main.py`, together with proofs of the
specification's claims about them.

Conventions:
* All wall-clock times are modelled as `Int` minutes counted from local
  midnight of the day being scheduled (`now_local`'s date).  The Python code
  works with tz-aware `datetime` values whose arithmetic is plain
  minute arithmetic within one day, and the fixed day-part windows are
  produced with `now_local.replace(hour=..., minute=0, ...)`, i.e. they only
  depend on the date, so this encoding is faithful for the quantities the
  claims are about.
* Python dict `.get(k, d)` / `.get(k) or d` accesses are modelled with
  `Option` fields and `getD`; where Python's `or` also replaces falsy values
  (`0`, `""`) the replacement is written out explicitly.
* Python exceptions that a claim depends on are modelled with `Except`.
-/

/-- Half-open interval overlap test used throughout the scheduler:
`[aSt, aEn)` meets `[bSt, bEn)`.  In `_push_past_busy` the source skips an
interval when `end_dt <= b_start or t >= b_end`; this is the negation. -/
def overlapsMin (aSt aEn bSt bEn : Int) : Bool :=
  decide (aSt < bEn) && decide (aEn > bSt)

/-- Fuel-indexed body of `_push_past_busy` (main.py lines 277-305).  The
Python loop repeatedly scans `busy` in order; on the first interval that
overlaps `[t, t+dur)` it sets `t = b_end + buffer` and restarts the scan, and
returns `t` once no interval overlaps.  With a non-negative buffer each
restart strictly decreases the number of busy intervals ending after `t`
(proved below), so fuel `busy.length + 1` always reaches the return. -/
def pushAux (dur buffer : Int) (busy : List (Int × Int)) : Nat → Int → Int
  | 0, t => t
  | fuel + 1, t =>
    match busy.find? (fun b => overlapsMin t (t + dur) b.1 b.2) with
    | none => t
    | some b => pushAux dur buffer busy fuel (b.2 + buffer)

/-- `_push_past_busy(start_dt, duration_min, busy, buffer_min)` from
main.py lines 277-305, with times in minutes. -/
def _push_past_busy (start_dt duration_min : Int) (busy : List (Int × Int))
    (buffer_min : Int) : Int :=
  pushAux duration_min buffer_min busy (busy.length + 1) start_dt

/-- Number of busy intervals ending strictly after `t`: the termination
measure of the push-past-busy restart loop. -/
def pushMeasure (t : Int) (busy : List (Int × Int)) : Nat :=
  (busy.filter (fun b => decide (t < b.2))).length

/-- The restart relation of push-past-busy: `PushReach dur buffer busy t u`
holds when the scan loop started at `t` passes through the candidate start
`u` (taking, at each restart, the first overlapping interval in list order,
exactly as the source does). -/
inductive PushReach (dur buffer : Int) (busy : List (Int × Int)) : Int → Int → Prop
  | refl (t : Int) : PushReach dur buffer busy t t
  | step (t u : Int) (b : Int × Int)
      (hfind : busy.find? (fun x => overlapsMin t (t + dur) x.1 x.2) = some b)
      (hnext : PushReach dur buffer busy (b.2 + buffer) u) :
      PushReach dur buffer busy t u

lemma length_filter_le_of_imp {α : Type} (p q : α → Bool) (l : List α)
    (himp : ∀ x, p x = true → q x = true) :
    (l.filter p).length ≤ (l.filter q).length := by
  induction l with
  | nil => simp
  | cons a l ih =>
    by_cases hp : p a = true
    · simp [List.filter_cons, hp, himp a hp]
      omega
    · simp only [List.filter_cons]
      rw [if_neg (by simp [hp])]
      by_cases hq : q a = true
      · simp [hq]; omega
      · rw [if_neg (by simp [hq])]; exact ih

lemma length_filter_lt_of_witness {α : Type} (p q : α → Bool) (l : List α)
    (b : α) (hb : b ∈ l) (hpb : p b = false) (hqb : q b = true)
    (himp : ∀ x, p x = true → q x = true) :
    (l.filter p).length < (l.filter q).length := by
  induction l with
  | nil => cases hb
  | cons a l ih =>
    rcases List.mem_cons.mp hb with rfl | hbl
    · simp only [List.filter_cons]
      rw [if_neg (by simp [hpb]), if_pos (by simp [hqb])]
      have := length_filter_le_of_imp p q l himp
      simp; omega
    · by_cases hp : p a = true
      · simp only [List.filter_cons]
        rw [if_pos (by simp [hp]), if_pos (by simp [himp a hp])]
        simpa using ih hbl
      · simp only [List.filter_cons]
        rw [if_neg (by simp [hp])]
        by_cases hq : q a = true
        · rw [if_pos (by simp [hq])]
          have := ih hbl
          simp; omega
        · rw [if_neg (by simp [hq])]; exact ih hbl

/-- A restart strictly decreases the number of busy intervals ending after
the candidate start (needs `0 ≤ buffer`). -/
lemma pushMeasure_decreases (dur buffer t : Int) (busy : List (Int × Int))
    (hbuf : 0 ≤ buffer) (b : Int × Int)
    (hfind : busy.find? (fun x => overlapsMin t (t + dur) x.1 x.2) = some b) :
    pushMeasure (b.2 + buffer) busy < pushMeasure t busy := by
  have hmem : b ∈ busy := List.mem_of_find?_eq_some hfind
  have hpred := List.find?_some hfind
  simp only [overlapsMin, Bool.and_eq_true, decide_eq_true_eq] at hpred
  have ht : t < b.2 := hpred.1
  apply length_filter_lt_of_witness _ _ _ b hmem
  · simp only [decide_eq_false_iff_not, not_lt]; omega
  · simp only [decide_eq_true_eq]; omega
  · intro x hx
    simp only [decide_eq_true_eq] at hx ⊢
    omega

lemma overlapsMin_and (t dur : Int) (x : Int × Int)
    (h : overlapsMin t (t + dur) x.1 x.2 = true) : t < x.2 ∧ t + dur > x.1 := by
  simpa [overlapsMin, Bool.and_eq_true, decide_eq_true_eq] using h

/-- With enough fuel (strictly more than the measure), `pushAux` reaches a
start free of every busy interval, never moves backwards, and every start it
passes through is reachable by the restart rule. -/
lemma pushAux_spec (dur buffer : Int) (busy : List (Int × Int)) (hbuf : 0 ≤ buffer) :
    ∀ fuel t, pushMeasure t busy < fuel →
      (∀ b ∈ busy, overlapsMin (pushAux dur buffer busy fuel t)
          (pushAux dur buffer busy fuel t + dur) b.1 b.2 = false) ∧
      t ≤ pushAux dur buffer busy fuel t ∧
      PushReach dur buffer busy t (pushAux dur buffer busy fuel t) := by
  intro fuel
  induction fuel with
  | zero => intro t ht; omega
  | succ n ih =>
    intro t ht
    rcases hfind : busy.find? (fun x => overlapsMin t (t + dur) x.1 x.2) with _ | b
    · refine ⟨?_, ?_, ?_⟩
      · intro b hb
        have := List.find?_eq_none.mp hfind b hb
        simp only [pushAux, hfind]
        simpa using this
      · simp [pushAux, hfind]
      · simpa [pushAux, hfind] using PushReach.refl t
    · have hdec := pushMeasure_decreases dur buffer t busy hbuf b hfind
      have hlt : pushMeasure (b.2 + buffer) busy < n := by omega
      obtain ⟨h1, h2, h3⟩ := ih (b.2 + buffer) hlt
      have hstep : pushAux dur buffer busy (n + 1) t
          = pushAux dur buffer busy n (b.2 + buffer) := by
        simp [pushAux, hfind]
      have hpred := List.find?_some hfind
      simp only [overlapsMin, Bool.and_eq_true, decide_eq_true_eq] at hpred
      refine ⟨?_, ?_, ?_⟩
      · intro x hx; rw [hstep]; exact h1 x hx
      · rw [hstep]; omega
      · rw [hstep]; exact PushReach.step t _ b hfind h3

/-- Fuel irrelevance: any two sufficient fuels compute the same result. -/
lemma pushAux_fuel_irrel (dur buffer : Int) (busy : List (Int × Int)) (hbuf : 0 ≤ buffer) :
    ∀ n m t, pushMeasure t busy < n → pushMeasure t busy < m →
      pushAux dur buffer busy n t = pushAux dur buffer busy m t := by
  intro n
  induction n with
  | zero => intro m t h1 _; omega
  | succ n ih =>
    intro m t h1 h2
    rcases m with _ | m
    · omega
    rcases hfind : busy.find? (fun x => overlapsMin t (t + dur) x.1 x.2) with _ | b
    · simp [pushAux, hfind]
    · have hdec := pushMeasure_decreases dur buffer t busy hbuf b hfind
      simp only [pushAux, hfind]
      exact ih m (b.2 + buffer) (by omega) (by omega)

lemma pushMeasure_le_length (t : Int) (busy : List (Int × Int)) :
    pushMeasure t busy ≤ busy.length :=
  List.length_filter_le _ _

/-- Uniqueness: any overlap-free start reachable by the restart rule is the
one `_push_past_busy` returns — it is the first (and only) free start the
restart chain meets. -/
lemma push_past_busy_unique (dur buffer : Int) (busy : List (Int × Int))
    (hbuf : 0 ≤ buffer) (start u : Int)
    (hreach : PushReach dur buffer busy start u)
    (hfree : ∀ b ∈ busy, overlapsMin u (u + dur) b.1 b.2 = false) :
    u = _push_past_busy start dur busy buffer := by
  induction hreach with
  | refl t =>
    have hnone : busy.find? (fun x => overlapsMin t (t + dur) x.1 x.2) = none := by
      apply List.find?_eq_none.mpr
      intro x hx
      simp [hfree x hx]
    simp [_push_past_busy, pushAux, hnone]
  | step t u b hfind hnext ih =>
    have hu := ih hfree
    have hdec := pushMeasure_decreases dur buffer t busy hbuf b hfind
    have hle := pushMeasure_le_length t busy
    have hle2 := pushMeasure_le_length (b.2 + buffer) busy
    calc u = _push_past_busy (b.2 + buffer) dur busy buffer := hu
    _ = pushAux dur buffer busy (busy.length + 1) (b.2 + buffer) := rfl
    _ = pushAux dur buffer busy busy.length (b.2 + buffer) :=
        (pushAux_fuel_irrel dur buffer busy hbuf busy.length (busy.length + 1)
          (b.2 + buffer) (by omega) (by omega)).symm
    _ = pushAux dur buffer busy (busy.length + 1) t := by
        simp [pushAux, hfind]
    _ = _push_past_busy t dur busy buffer := rfl

/-- **C3**: for every desired start, duration, non-negative buffer and finite
busy list, `_push_past_busy` terminates and returns a start `t ≥ start` whose
span `[t, t+duration)` overlaps no busy interval; `t` is reachable by the
restart rule `start = b_end + buffer` and is the only (hence first)
overlap-free start the restart chain reaches.  On the spec's example —
busy `[(09:30, 10:00)]`, duration 40, candidate start 09:15, buffer 5 —
it returns 10:05 (minutes: busy `[(570, 600)]`, start 555, result 605). -/
theorem push_past_busy_correct (start dur buffer : Int) (busy : List (Int × Int))
    (hbuf : 0 ≤ buffer) :
    start ≤ _push_past_busy start dur busy buffer ∧
    (∀ b ∈ busy, ¬(_push_past_busy start dur busy buffer < b.2 ∧
        _push_past_busy start dur busy buffer + dur > b.1)) ∧
    PushReach dur buffer busy start (_push_past_busy start dur busy buffer) ∧
    (∀ u, PushReach dur buffer busy start u →
        (∀ b ∈ busy, ¬(u < b.2 ∧ u + dur > b.1)) →
        u = _push_past_busy start dur busy buffer) ∧
    _push_past_busy 555 40 [(570, 600)] 5 = 605 := by
  have hm : pushMeasure start busy < busy.length + 1 := by
    have := pushMeasure_le_length start busy
    omega
  obtain ⟨h1, h2, h3⟩ := pushAux_spec dur buffer busy hbuf (busy.length + 1) start hm
  refine ⟨h2, ?_, h3, ?_, by decide⟩
  · intro b hb
    have := h1 b hb
    simpa [overlapsMin, Bool.and_eq_true, decide_eq_true_eq] using this
  · intro u hreach hfree
    apply push_past_busy_unique dur buffer busy hbuf start u hreach
    intro b hb
    have := hfree b hb
    simpa [overlapsMin] using this

/-- Witness for C3 at the spec's concrete example. -/
theorem push_past_busy_correct_witness :
    0 ≤ (5 : Int) ∧ _push_past_busy 555 40 [(570, 600)] 5 = 605 :=
  ⟨by decide, (push_past_busy_correct 555 40 5 [(570, 600)] (by decide)).2.2.2.2⟩

/-- A daily plan item as consumed by `schedule_daily_items` (a dict produced
from `DailyPlanItem`; fields the scheduler reads via `.get` are `Option`s
with the source's defaults applied at the use sites).  The pass-through
fields `item_id`, `details`, `goal_ids` are carried so blocks match the
source's shape. -/
structure SchedItem where
  item_id : Option String := none
  title : String
  details : Option String := none
  goal_ids : List String := []
  kind : Option String := none
  window : Option String := none
  minutes : Option Int := none
  occurrences : Option Int := none
  min_gap_minutes : Option Int := none
deriving DecidableEq, Repr

/-- A scheduled block (the dicts appended to `scheduled` in
`schedule_daily_items`).  `start`/`stop` are the `start`/`end` minute values
(`end` is stored as an ISO string in the source; same-day ISO strings compare
lexicographically exactly as the minute values compare numerically). -/
structure Block where
  item_id : Option String := none
  title : String
  details : String := ""
  goal_ids : List String := []
  kind : String
  start : Int
  stop : Int
deriving DecidableEq, Repr

/-- `_day_window_bounds(now_local, window)` (main.py lines 927-939): the
fixed local day-part table, as minutes since midnight of `now_local`'s date.
The result depends only on the date, so the `now_local` argument is unused
in the minute encoding. -/
def _day_window_bounds (_now_local : Int) (window : String) : Int × Int :=
  if window = "morning" then (540, 720)
  else if window = "midday" then (720, 840)
  else if window = "afternoon" then (840, 1080)
  else if window = "evening" then (1080, 1320)
  else (540, 1320)

/-- `_conflicts(title, t, min_gap)` (main.py lines 1010-1017): `t` is within
`min_gap` minutes of an already-scheduled block with the same title. -/
def _conflicts (scheduled : List Block) (title : String) (t : Int)
    (min_gap : Int) : Bool :=
  scheduled.any (fun s => s.title == title && decide (((t - s.start).natAbs : Int) < min_gap))

/-- The habit retry loop (main.py lines 1037-1041): while the candidate
conflicts with a same-title block and fewer than 10 attempts were made, add
15 minutes of jitter and push past busy again.  `remaining` counts the
attempts still allowed (the source counts `tries` up from 0 to 10). -/
def habitTry (busySorted : List (Int × Int)) (buffer dur min_gap : Int)
    (title : String) (scheduled : List Block) : Nat → Int → Int
  | 0, t => t
  | remaining + 1, t =>
    if _conflicts scheduled title t min_gap then
      habitTry busySorted buffer dur min_gap title scheduled remaining
        (_push_past_busy (t + 15) dur busySorted buffer)
    else t

/-- One habit item's occurrence loop (main.py lines 1033-1053): for each of
`occ` occurrences, push past busy, retry with jitter on same-title
conflicts, append the block, and advance by `step`. -/
def habitOccLoop (busySorted : List (Int × Int)) (buffer dur min_gap step : Int)
    (it : SchedItem) : Nat → Int → List Block → List Block
  | 0, _, scheduled => scheduled
  | occ + 1, t, scheduled =>
    let t1 := _push_past_busy t dur busySorted buffer
    let t2 := habitTry busySorted buffer dur min_gap it.title scheduled 10 t1
    let blk : Block :=
      { item_id := it.item_id
        title := it.title
        details := it.details.getD ""
        goal_ids := it.goal_ids
        kind := "habit"
        start := t2
        stop := t2 + dur }
    habitOccLoop busySorted buffer dur min_gap step it occ (t2 + step)
      (scheduled ++ [blk])

/-- The habit scheduling pass of `schedule_daily_items` (main.py lines
1020-1053), folding over the habit items.  Integer divisions follow
Python's floor semantics (`Int.fdiv`). -/
def habitPass (busySorted : List (Int × Int)) (buffer now_local cursor : Int)
    (habits : List SchedItem) (scheduled0 : List Block) : List Block :=
  habits.foldl (fun scheduled it =>
    let wb := _day_window_bounds now_local (it.window.getD "any")
    let occ := it.occurrences.getD 1
    let min_gap := it.min_gap_minutes.getD 120
    let dur := it.minutes.getD 2
    let start_base := max (max now_local cursor) wb.1
    let total_span := max 1 (wb.2 - start_base)
    let step := max min_gap (Int.fdiv total_span occ)
    habitOccLoop busySorted buffer dur min_gap step it occ.toNat start_base scheduled)
    scheduled0

/-- The habit split predicate (main.py line 982): `kind == "habit"` and
`occurrences > 1`. -/
def isHabitItem (it : SchedItem) : Bool :=
  it.kind.getD "" == "habit" && decide (1 < it.occurrences.getD 1)

/-- `schedule_daily_items(items, now_local, start_in_minutes, buffer_minutes,
busy)` (main.py lines 942-1057).

The focus pass (lines 986-1007) executes `t = _shift_to_free(t, dur)` in its
first iteration; `t` is a function-local variable that has not been assigned
at that point (its only earlier assignments are in the habit loop below,
which runs later), so Python raises `UnboundLocalError` whenever at least
one item falls in the `focus` list — modelled as `.error`.  `focus` is
`[it for it in items if it not in habits]` with `habits` the value-filter of
`isHabitItem`, which equals filtering by the negated predicate.

When `focus` is empty the habit pass runs and the blocks are returned
sorted by start (the source sorts by the ISO `start` string; a stable sort
on the minute key is the same ordering). -/
def schedule_daily_items (items : List SchedItem)
    (now_local start_in_minutes buffer_minutes : Int)
    (busy : List (Int × Int)) : Except String (List Block) :=
  let busySorted := List.insertionSort (fun a b : Int × Int => a.1 ≤ b.1) busy
  let cursor := now_local + start_in_minutes
  let habits := items.filter isHabitItem
  let focus := items.filter (fun it => !(isHabitItem it))
  match focus with
  | [] =>
    let scheduled := habitPass busySorted buffer_minutes now_local cursor habits []
    .ok (List.insertionSort (fun a b : Block => a.start ≤ b.start) scheduled)
  | _ :: _ =>
    .error "UnboundLocalError: local variable t referenced before assignment"

/-- **C2**: `schedule_daily_items` raises (an unhandled `UnboundLocalError`,
from reading `t` in `t = _shift_to_free(t, dur)` before any assignment to
`t`) exactly when the input contains at least one item routed to the focus
pass — i.e. any item that is not (`kind = "habit"` with `occurrences > 1`);
a schedule is returned without error precisely for habit-only inputs. -/
theorem schedule_daily_items_error_iff_focus_item (items : List SchedItem)
    (now_local start_in_minutes buffer_minutes : Int) (busy : List (Int × Int)) :
    (∃ e, schedule_daily_items items now_local start_in_minutes buffer_minutes busy
        = Except.error e) ↔
    ∃ it ∈ items, isHabitItem it = false := by
  rcases hf : items.filter (fun it => !(isHabitItem it)) with _ | ⟨a, rest⟩
  · simp only [schedule_daily_items, hf]
    constructor
    · rintro ⟨e, he⟩
      simp at he
    · rintro ⟨it, hmem, hfalse⟩
      have hin : it ∈ items.filter (fun it => !(isHabitItem it)) :=
        List.mem_filter.mpr ⟨hmem, by simp [hfalse]⟩
      rw [hf] at hin
      cases hin
  · simp only [schedule_daily_items, hf]
    constructor
    · intro _
      have ha : a ∈ items.filter (fun it => !(isHabitItem it)) := by
        rw [hf]; exact List.mem_cons_self a rest
      have hsplit := List.mem_filter.mp ha
      exact ⟨a, hsplit.1, by simpa using hsplit.2⟩
    · intro _
      exact ⟨_, rfl⟩

/-- The scheduling portion of the `/api/daily/commit` endpoint
(`daily_commit`, main.py lines 2261-2276): it first computes a schedule
passing the merged busy intervals (`busy=busy`), then immediately recomputes
`schedule` WITHOUT the `busy` argument (which defaults to `None`, i.e. `[]`)
and keeps only the second result — the one it persists and writes to the
calendar.  Both calls use `buffer_minutes=5`. -/
def daily_commit_schedule (items : List SchedItem)
    (now_local start_in_minutes : Int) (busy : List (Int × Int)) :
    Except String (List Block) :=
  match schedule_daily_items items now_local start_in_minutes 5 busy with
  | Except.error e => Except.error e
  | Except.ok _ => schedule_daily_items items now_local start_in_minutes 5 []

/-- Failing input for the commit endpoint: one habit item (the only kind of
input the scheduler survives, see C2) and one merged busy interval
09:05-11:40 (minutes 545-700, as built by the busy-interval builder with
its 5-minute buffer). -/
def hydrationItem : SchedItem :=
  { item_id := some "it-1"
    title := "Hydrate"
    details := some "Drink water"
    goal_ids := ["g1"]
    kind := some "habit"
    window := some "any"
    minutes := some 30
    occurrences := some 2
    min_gap_minutes := some 60 }

/-- **C1**: the claim is right about `schedule_daily_items` itself but the
commit endpoint violates it: `daily_commit` recomputes the schedule without
the `busy` argument (main.py lines 2271-2276) and persists that recomputed
schedule.  Evaluated at `now_local` 09:00, `start_in_minutes` 5, and merged
busy set `[(545, 700)]` (09:05-11:40): the schedule computed WITH the busy
set places the blocks at 11:45 and 18:12, overlap-free, but the schedule
the endpoint keeps places a block at `[545, 575)` ∧ overlaps the busy
interval `[545, 700)`. -/
theorem daily_commit_persists_overlapping_block :
    daily_commit_schedule [hydrationItem] 540 5 [(545, 700)]
      = Except.ok
        [{ item_id := some "it-1", title := "Hydrate", details := "Drink water",
           goal_ids := ["g1"], kind := "habit", start := 545, stop := 575 },
         { item_id := some "it-1", title := "Hydrate", details := "Drink water",
           goal_ids := ["g1"], kind := "habit", start := 932, stop := 962 }] ∧
    overlapsMin 545 575 545 700 = true ∧
    schedule_daily_items [hydrationItem] 540 5 5 [(545, 700)]
      = Except.ok
        [{ item_id := some "it-1", title := "Hydrate", details := "Drink water",
           goal_ids := ["g1"], kind := "habit", start := 705, stop := 735 },
         { item_id := some "it-1", title := "Hydrate", details := "Drink water",
           goal_ids := ["g1"], kind := "habit", start := 1092, stop := 1122 }] := by
  refine ⟨by rfl, by rfl, by rfl⟩

/-- Python's `str.strip()` (ASCII whitespace), written over the character
list so the kernel can evaluate it on concrete strings. -/
def isPyWS (c : Char) : Bool :=
  c = ' ' || c = '\t' || c = '\n' || c = '\r'

def pyStrip (s : String) : String :=
  String.mk (((s.data.dropWhile isPyWS).reverse.dropWhile isPyWS).reverse)

/-- Python's `str.lower()` restricted to ASCII, over the character list. -/
def pyLower (s : String) : String :=
  String.mk (s.data.map (fun c =>
    if c.toNat ≥ 65 ∧ c.toNat ≤ 90 then Char.ofNat (c.toNat + 32) else c))

def listIsPrefixOf : List Char → List Char → Bool
  | [], _ => true
  | _ :: _, [] => false
  | a :: as, b :: bs => a == b && listIsPrefixOf as bs

/-- Python's `str.startswith(pre)`. -/
def pyStartsWith (s pre : String) : Bool :=
  listIsPrefixOf pre.data s.data

/-- A normalized plan step (`PlanStep` model / the dicts in `norm_steps`). -/
structure PlanStepL where
  title : String
  minutes : Int
  details : String
deriving DecidableEq, Repr

/-- A raw step as found in the generator's `steps` list, split along the
three disjoint branches of the normalization loop in `_validate_plan_json`
(main.py lines 318-345), in match order: a dict with `title`/`minutes`/
`details`; a dict with an `action` key (and optional `minutes`); anything
else, stringified. -/
inductive RawStep where
  | ideal (title : String) (minutes : Int) (details : String)
  | action (action : Option String) (minutes : Option Int)
  | other (txt : String)
deriving DecidableEq, Repr

/-- The parsed planner/reviser JSON object (after `_json_load_or_raise` and
`_find_plan_obj`): `steps := none` models a missing `steps` key (a hard
failure), `total_minutes := none` models a missing/uncoercible
`total_minutes`. -/
structure PlanObj where
  steps : Option (List RawStep) := none
  total_minutes : Option Int := none
  summary : Option String := none
deriving DecidableEq, Repr

/-- Normalization of one raw step (main.py lines 318-345).  In the `action`
branch Python computes `int(s.get("minutes") or 10)` — `or` also replaces a
present `0` — then clamps to `[1, 90]`; titles are truncated to 80
characters with `"Step"` / `"Do the step."` fallbacks for empty text. -/
def normStep : RawStep → PlanStepL
  | RawStep.ideal t m d => { title := t, minutes := m, details := d }
  | RawStep.action a om =>
    let act := pyStrip (a.getD "")
    let m0 : Int := match om with
      | some v => if v = 0 then 10 else v
      | none => 10
    { title := if act = "" then "Step" else act.take 80
      minutes := max 1 (min 90 m0)
      details := if act = "" then "Do the step." else act }
  | RawStep.other txt =>
    let t := pyStrip txt
    { title := if t = "" then "Step" else t.take 80
      minutes := 10
      details := if t = "" then "Do the step." else t }

/-- The output of `_validate_plan_json` (a dumped `PlanOutput`). -/
structure PlanOut where
  steps : List PlanStepL
  total_minutes : Int
  summary : String
deriving DecidableEq, Repr

/-- `_validate_plan_json` (main.py lines 308-362): normalize the raw steps,
take the generator's `total_minutes` if coercible (else the sum), validate
against the `PlanOutput` schema (2-6 steps, each step's minutes in
`[1, 90]`; violations raise), then overwrite `total_minutes` with the sum
of the step minutes (line 361). -/
def _validate_plan_json (p : PlanObj) : Except String PlanOut :=
  match p.steps with
  | none => Except.error "planner/reviser: missing steps"
  | some raw =>
    let norm := raw.map normStep
    let summary :=
      let s := pyStrip (p.summary.getD "")
      if s = "" then "Quick plan to move the goal forward." else s
    let total0 : Int := match p.total_minutes with
      | some v => v
      | none => (norm.map PlanStepL.minutes).sum
    let normalized : PlanOut := { steps := norm, total_minutes := total0, summary := summary }
    if 2 ≤ normalized.steps.length ∧ normalized.steps.length ≤ 6 ∧
        (∀ s ∈ normalized.steps, 1 ≤ s.minutes ∧ s.minutes ≤ 90) then
      Except.ok { normalized with
        total_minutes := (normalized.steps.map PlanStepL.minutes).sum }
    else Except.error "planner/reviser: PlanOutput validation failed"

/-- **C4**: every plan `_validate_plan_json` returns has
`total_minutes = Σ step.minutes` exactly, whatever `total_minutes` the
generator reported. -/
theorem validate_plan_total_is_sum (p : PlanObj) (out : PlanOut)
    (h : _validate_plan_json p = Except.ok out) :
    out.total_minutes = (out.steps.map PlanStepL.minutes).sum := by
  unfold _validate_plan_json at h
  rcases hs : p.steps with _ | raw
  · rw [hs] at h
    cases h
  · rw [hs] at h
    dsimp only at h
    split at h
    · injection h with h2
      subst h2
      rfl
    · cases h

/-- Witness for C4: a generator-reported `total_minutes` of 99 is replaced
by the true sum 30. -/
theorem validate_plan_total_is_sum_witness :
    _validate_plan_json
      { steps := some [RawStep.ideal "a" 10 "x", RawStep.ideal "b" 20 "y"],
        total_minutes := some 99, summary := some "s" }
      = Except.ok { steps := [{ title := "a", minutes := 10, details := "x" },
                              { title := "b", minutes := 20, details := "y" }],
                    total_minutes := 30, summary := "s" } ∧
    (30 : Int) = ([{ title := "a", minutes := 10, details := "x" },
                   { title := "b", minutes := 20, details := "y" }].map
                     PlanStepL.minutes).sum := by
  refine ⟨by rfl, ?_⟩
  exact validate_plan_total_is_sum
    { steps := some [RawStep.ideal "a" 10 "x", RawStep.ideal "b" 20 "y"],
      total_minutes := some 99, summary := some "s" }
    { steps := [{ title := "a", minutes := 10, details := "x" },
                { title := "b", minutes := 20, details := "y" }],
      total_minutes := 30, summary := "s" }
    (by rfl)

/-- The learned-preference snapshot fields `apply_policy` reads. -/
structure PrefsL where
  prefers_short_plans : Bool := false
  prefers_blocker_first : Bool := false
  wants_more_specific_steps : Bool := false
  pref_max_steps : Option Int := none
  pref_max_total_minutes : Option Int := none
deriving DecidableEq, Repr

structure ConstraintsL where
  max_steps : Int
  min_total_minutes : Int
  max_total_minutes : Int
deriving DecidableEq, Repr

structure PolicyOut where
  selected_agent : String
  state : String
  constraints : ConstraintsL
  requirements : List String
deriving DecidableEq, Repr

/-- `apply_policy(req_payload, route, prefs)` (main.py lines 754-798).  Note
the base bounds are the FIXED values `max_steps = 5`, `min_total = 15`,
`max_total = 60`, regardless of `selected_agent`; tightening steps follow
for short-plan preference, low energy, INCIDENT/triage, and learned caps. -/
def apply_policy (energy : Int) (blockers : Option String)
    (state selected_agent : String) (prefs : PrefsL) : PolicyOut :=
  let max_steps0 : Int := 5
  let min_total : Int := 15
  let max_total0 : Int := 60
  let (max_steps1, max_total1) :=
    if prefs.prefers_short_plans then ((4 : Int), (40 : Int))
    else (max_steps0, max_total0)
  let (max_steps2, max_total2) :=
    if energy ≤ 2 then (min max_steps1 4, min max_total1 35)
    else (max_steps1, max_total1)
  let (max_steps3, max_total3) :=
    if state = "INCIDENT" ∨ selected_agent = "triage"
    then (min max_steps2 4, min max_total2 30)
    else (max_steps2, max_total2)
  let requirements :=
    (if pyStrip (blockers.getD "") ≠ "" then
      ["include a step that reduces/removes blockers early"] else []) ++
    (if prefs.prefers_blocker_first then
      ["make the first step address blockers (if any)"] else []) ++
    (if prefs.wants_more_specific_steps then
      ["steps must be concrete, non-generic, include a clear first action"] else [])
  let max_steps4 := match prefs.pref_max_steps with
    | some v => min max_steps3 v
    | none => max_steps3
  let max_total4 := match prefs.pref_max_total_minutes with
    | some v => min max_total3 v
    | none => max_total3
  { selected_agent := selected_agent
    state := state
    constraints :=
      { max_steps := max_steps4
        min_total_minutes := min_total
        max_total_minutes := max_total4 }
    requirements := requirements }

structure AgentConstraints where
  max_steps : Int
  min_total : Int
  max_total : Int
deriving DecidableEq, Repr

/-- `_agent_constraints(selected_agent)` (main.py lines 1242-1248): the
agent-keyed base-bounds table, with the deep-work values as the default. -/
def _agent_constraints (selected_agent : String) : AgentConstraints :=
  if selected_agent = "maintenance" then { max_steps := 3, min_total := 8, max_total := 20 }
  else if selected_agent = "triage" then { max_steps := 4, min_total := 10, max_total := 35 }
  else if selected_agent = "recovery" then { max_steps := 4, min_total := 10, max_total := 35 }
  else if selected_agent = "deep_work" then { max_steps := 5, min_total := 15, max_total := 60 }
  else { max_steps := 5, min_total := 15, max_total := 60 }

structure VerdictL where
  ok : Bool
  issues : List String
  suggested_edits : List String := []
deriving DecidableEq, Repr

/-- `critic_rule(plan, selected_agent)` (main.py lines 1534-1553).  Note the
numeric bounds come from `_agent_constraints(selected_agent)`, NOT from the
policy constraints carried by the refinement loop. -/
def critic_rule (plan : PlanOut) (selected_agent : String) : VerdictL :=
  let steps := plan.steps
  let total := plan.total_minutes
  let c := _agent_constraints selected_agent
  let issues :=
    (if steps.isEmpty then ["No steps produced."] else []) ++
    (if steps.length < 2 then ["Plan must have at least 2 steps."] else []) ++
    (if (steps.length : Int) > c.max_steps then
      ["Too many steps (" ++ toString steps.length ++ "). Max "
        ++ toString c.max_steps ++ "."] else []) ++
    (if total < c.min_total then
      ["Plan too short (" ++ toString total ++ " min). Target >= "
        ++ toString c.min_total ++ "."] else []) ++
    (if total > c.max_total then
      ["Plan too long (" ++ toString total ++ " min). Target <= "
        ++ toString c.max_total ++ "."] else [])
  { ok := issues.isEmpty, issues := issues }

/-- Counterexample to **C6**: with no preference signals, energy 3 (> 2) and
state NORMAL, `apply_policy` for `selected_agent = "maintenance"` emits the
fixed base constraints `{max_steps 5, min_total 15, max_total 60}`, not the
agent-specific `{3, 8, 20}` the claim asserts. -/
theorem apply_policy_maintenance_counterexample :
    (apply_policy 3 none "NORMAL" "maintenance" {}).constraints
      = { max_steps := 5, min_total_minutes := 15, max_total_minutes := 60 } ∧
    (apply_policy 3 none "NORMAL" "maintenance" {}).constraints
      ≠ { max_steps := 3, min_total_minutes := 8, max_total_minutes := 20 } := by
  refine ⟨by rfl, by decide⟩

/-- **C6 (amended)**: `apply_policy` starts from the FIXED base bounds
`max_steps 5 / 15-60 min` irrespective of `selected_agent`; the
agent-specific table (maintenance 3 steps/8-20 min; triage and recovery
4 steps/10-35 min; deep_work 5 steps/15-60 min) lives in
`_agent_constraints`, which the rule critic uses.  With no preference
signals, energy > 2, state not INCIDENT and agent maintenance, the emitted
constraints are `{5, 15, 60}`. -/
theorem apply_policy_fixed_base (energy : Int) (blockers : Option String)
    (state : String) (prefs : PrefsL)
    (h1 : prefs.prefers_short_plans = false)
    (h2 : prefs.pref_max_steps = none)
    (h3 : prefs.pref_max_total_minutes = none)
    (h4 : 2 < energy)
    (h5 : state ≠ "INCIDENT") :
    (apply_policy energy blockers state "maintenance" prefs).constraints
      = { max_steps := 5, min_total_minutes := 15, max_total_minutes := 60 } ∧
    _agent_constraints "maintenance" = { max_steps := 3, min_total := 8, max_total := 20 } ∧
    _agent_constraints "triage" = { max_steps := 4, min_total := 10, max_total := 35 } ∧
    _agent_constraints "recovery" = { max_steps := 4, min_total := 10, max_total := 35 } ∧
    _agent_constraints "deep_work" = { max_steps := 5, min_total := 15, max_total := 60 } := by
  refine ⟨?_, by rfl, by rfl, by rfl, by rfl⟩
  have he : ¬(energy ≤ 2) := by omega
  have hmt : ¬(state = "INCIDENT" ∨ ("maintenance" : String) = "triage") := by
    rintro (h | h)
    · exact h5 h
    · exact absurd h (by decide)
  simp [apply_policy, h1, h2, h3, he, hmt, h5]

/-- Witness for the amended C6 at a concrete no-signal request. -/
theorem apply_policy_fixed_base_witness :
    ({} : PrefsL).prefers_short_plans = false ∧
    ({} : PrefsL).pref_max_steps = none ∧
    ({} : PrefsL).pref_max_total_minutes = none ∧
    (2 : Int) < 3 ∧
    ("NORMAL" : String) ≠ "INCIDENT" ∧
    (apply_policy 3 none "NORMAL" "maintenance" {}).constraints
      = { max_steps := 5, min_total_minutes := 15, max_total_minutes := 60 } :=
  ⟨rfl, rfl, rfl, by decide, by decide,
    (apply_policy_fixed_base 3 none "NORMAL" {} rfl rfl rfl (by decide) (by decide)).1⟩

/-- A concrete plan with 3 steps of 10 minutes each (total 30). -/
def planThreeSteps : PlanOut :=
  { steps := [{ title := "a", minutes := 10, details := "d" },
              { title := "b", minutes := 10, details := "d" },
              { title := "c", minutes := 10, details := "d" }]
    total_minutes := 30
    summary := "p" }

/-- Counterexample to **C7**: the claim ties the rule critic's bounds to the
constraints the refinement loop carries (the `apply_policy` output handed to
the generator and reviser, learned caps included).  With a learned cap
`pref_max_steps = 2` for a deep-work request, those constraints have
`max_steps = 2`, and `planThreeSteps` has 3 > 2 steps — yet `critic_rule`
reports `ok = true`, because it reads its bounds from
`_agent_constraints "deep_work"` (max 5 steps) instead.  The claimed
equivalence is false at this input. -/
theorem critic_rule_policy_counterexample :
    ¬(((critic_rule planThreeSteps "deep_work").ok = false) ↔
      (planThreeSteps.steps.length < 2 ∨
       (planThreeSteps.steps.length : Int) >
         (apply_policy 3 none "NORMAL" "deep_work"
           { pref_max_steps := some 2 }).constraints.max_steps ∨
       planThreeSteps.total_minutes <
         (apply_policy 3 none "NORMAL" "deep_work"
           { pref_max_steps := some 2 }).constraints.min_total_minutes ∨
       planThreeSteps.total_minutes >
         (apply_policy 3 none "NORMAL" "deep_work"
           { pref_max_steps := some 2 }).constraints.max_total_minutes)) := by
  decide

/-- **C7 (amended)**: `critic_rule` reports `ok = false` iff the plan has
fewer than 2 steps, more steps than `max_steps`, total minutes below
`min_total`, or total minutes above `max_total`, where the bounds are the
agent base bounds `_agent_constraints(selected_agent)` — NOT the
(possibly tightened) policy constraints the loop gives the generator and
reviser. -/
theorem critic_rule_ok_iff (plan : PlanOut) (selected_agent : String) :
    ((critic_rule plan selected_agent).ok = false) ↔
    (plan.steps.length < 2 ∨
     (plan.steps.length : Int) > (_agent_constraints selected_agent).max_steps ∨
     plan.total_minutes < (_agent_constraints selected_agent).min_total ∨
     plan.total_minutes > (_agent_constraints selected_agent).max_total) := by
  unfold critic_rule
  dsimp only
  have hEmpty : (plan.steps.isEmpty = true) = (plan.steps.length = 0) := by
    cases plan.steps <;> simp
  simp only [hEmpty]
  by_cases h0 : plan.steps.length = 0 <;>
    by_cases h2 : plan.steps.length < 2 <;>
    by_cases h3 : (plan.steps.length : Int) > (_agent_constraints selected_agent).max_steps <;>
    by_cases h4 : plan.total_minutes < (_agent_constraints selected_agent).min_total <;>
    by_cases h5 : plan.total_minutes > (_agent_constraints selected_agent).max_total <;>
    simp [h0, h2, h3, h4, h5]


/-- `MAX_ITERS` (main.py line 1640). -/
def MAX_ITERS : Nat := 3

/-- Order-preserving de-duplicating union of issue lists, as built in
`run_agent_loop` (main.py lines 1675-1681 and 1697-1703). -/
def mergeIssues (ruleIssues llmIssues : List String) : List String :=
  let m1 := ruleIssues.foldl (fun acc s => if s ∈ acc then acc else acc ++ [s]) []
  llmIssues.foldl (fun acc s => if s ∈ acc then acc else acc ++ [s]) m1

/-- The loop state of `run_agent_loop` when the `while` loop exits
(main.py lines 1683-1706): current plan, the two verdicts on it, the
iteration count, plus (instrumentation) the trace of reviser calls made —
one entry per call, each the merged issue list passed to it.  The external
collaborators are oracles: `criticL k p` is the verdict of the `k`-th
`critic_llm` call on plan `p`, `reviser k issues` the plan returned by the
`k`-th `reviser_agent_llm` call.  `fuel = MAX_ITERS - iters`. -/
def agentLoopGo (selected_agent : String)
    (criticL : Nat → PlanOut → VerdictL) (reviser : Nat → List String → PlanOut) :
    Nat → PlanOut → VerdictL → VerdictL → List String → Nat → List (List String) →
    PlanOut × VerdictL × VerdictL × Nat × List (List String)
  | 0, plan, rule, llm, _, iters, calls => (plan, rule, llm, iters, calls)
  | fuel + 1, plan, rule, llm, merged, iters, calls =>
    if rule.ok && llm.ok then (plan, rule, llm, iters, calls)
    else
      let plan1 := reviser iters merged
      let rule1 := critic_rule plan1 selected_agent
      let llm1 := criticL (iters + 1) plan1
      agentLoopGo selected_agent criticL reviser fuel plan1 rule1 llm1
        (mergeIssues rule1.issues llm1.issues) (iters + 1) (calls ++ [merged])

/-- The fields of the dict `run_agent_loop` returns that the loop computes
(the prefs/policy echo fields are omitted). -/
structure AgentLoopResult where
  state : String
  selected_agent : String
  summary : String
  steps : List PlanStepL
  total_minutes : Int
  iterations : Nat
  critic_rule_ok : Bool
  critic_rule_issues : List String
  critic_llm_ok : Bool
  critic_llm_issues : List String
  critic_llm_suggested_edits : List String
deriving DecidableEq, Repr

/-- The plan a loop result carries (its `summary`/`steps`/`total_minutes`
fields, main.py lines 1711-1713). -/
def resultPlan (r : AgentLoopResult) : PlanOut :=
  { steps := r.steps, total_minutes := r.total_minutes, summary := r.summary }

/-- `run_agent_loop` (main.py lines 1643-1722), abstracted over the external
planner/critic/reviser: critique `plan0` with `critic_rule` and the external
critic, then revise while either critic fails, up to `MAX_ITERS` times, and
return the final dict together with the reviser-call trace. -/
def run_agent_loop (state selected_agent : String) (plan0 : PlanOut)
    (criticL : Nat → PlanOut → VerdictL) (reviser : Nat → List String → PlanOut) :
    AgentLoopResult × List (List String) :=
  let rule0 := critic_rule plan0 selected_agent
  let llm0 := criticL 0 plan0
  let fin := agentLoopGo selected_agent criticL reviser MAX_ITERS plan0 rule0 llm0
    (mergeIssues rule0.issues llm0.issues) 0 []
  ({ state := state
     selected_agent := selected_agent
     summary := fin.1.summary
     steps := fin.1.steps
     total_minutes := fin.1.total_minutes
     iterations := fin.2.2.2.1
     critic_rule_ok := fin.2.1.ok
     critic_rule_issues := fin.2.1.issues
     critic_llm_ok := fin.2.2.1.ok
     critic_llm_issues := fin.2.2.1.issues
     critic_llm_suggested_edits := fin.2.2.1.suggested_edits },
   fin.2.2.2.2)

lemma agentLoopGo_invariant (selected_agent : String)
    (criticL : Nat → PlanOut → VerdictL) (reviser : Nat → List String → PlanOut) :
    ∀ (fuel : Nat) (plan : PlanOut) (llm : VerdictL) (merged : List String)
      (iters : Nat) (calls : List (List String)),
      iters = calls.length → iters + fuel = MAX_ITERS →
      llm = criticL iters plan →
      (agentLoopGo selected_agent criticL reviser fuel plan
          (critic_rule plan selected_agent) llm merged iters calls).2.2.2.1 ≤ MAX_ITERS ∧
      (agentLoopGo selected_agent criticL reviser fuel plan
          (critic_rule plan selected_agent) llm merged iters calls).2.2.2.1 =
        (agentLoopGo selected_agent criticL reviser fuel plan
          (critic_rule plan selected_agent) llm merged iters calls).2.2.2.2.length ∧
      ((agentLoopGo selected_agent criticL reviser fuel plan
          (critic_rule plan selected_agent) llm merged iters calls).2.2.2.1 = MAX_ITERS ∨
        ((agentLoopGo selected_agent criticL reviser fuel plan
          (critic_rule plan selected_agent) llm merged iters calls).2.1.ok = true ∧
         (agentLoopGo selected_agent criticL reviser fuel plan
          (critic_rule plan selected_agent) llm merged iters calls).2.2.1.ok = true)) ∧
      (agentLoopGo selected_agent criticL reviser fuel plan
          (critic_rule plan selected_agent) llm merged iters calls).2.1 =
        critic_rule (agentLoopGo selected_agent criticL reviser fuel plan
          (critic_rule plan selected_agent) llm merged iters calls).1 selected_agent ∧
      (agentLoopGo selected_agent criticL reviser fuel plan
          (critic_rule plan selected_agent) llm merged iters calls).2.2.1 =
        criticL ((agentLoopGo selected_agent criticL reviser fuel plan
          (critic_rule plan selected_agent) llm merged iters calls).2.2.2.1)
          (agentLoopGo selected_agent criticL reviser fuel plan
          (critic_rule plan selected_agent) llm merged iters calls).1 := by
  intro fuel
  induction fuel with
  | zero =>
    intro plan llm merged iters calls hcalls hiters hllm
    subst hllm
    simp only [agentLoopGo]
    exact ⟨by omega, hcalls, Or.inl (by omega), trivial, trivial⟩
  | succ n ih =>
    intro plan llm merged iters calls hcalls hiters hllm
    by_cases hok : ((critic_rule plan selected_agent).ok && llm.ok) = true
    · subst hllm
      simp only [agentLoopGo, hok, if_true]
      simp only [Bool.and_eq_true] at hok
      refine ⟨by omega, hcalls, Or.inr ⟨hok.1, hok.2⟩, ?_, ?_⟩ <;> first | rfl | trivial
    · simp only [agentLoopGo, hok, if_false]
      exact ih (reviser iters merged) (criticL (iters + 1) (reviser iters merged))
        (mergeIssues (critic_rule (reviser iters merged) selected_agent).issues
          (criticL (iters + 1) (reviser iters merged)).issues)
        (iters + 1) (calls ++ [merged]) (by simp [hcalls]) (by omega) rfl

/-- **C5**: `run_agent_loop` performs at most `MAX_ITERS = 3` revision
iterations; the `iterations` field it returns equals the number of reviser
calls actually made (the length of the reviser-call trace); the loop only
stops short of 3 iterations when both critics accept; and the returned
verdict fields are exactly the two critics' verdicts on the returned plan —
in particular, on exhaustion the last candidate is returned together with
its failing verdicts unchanged. -/
theorem run_agent_loop_bounded (state selected_agent : String) (plan0 : PlanOut)
    (criticL : Nat → PlanOut → VerdictL) (reviser : Nat → List String → PlanOut) :
    (run_agent_loop state selected_agent plan0 criticL reviser).1.iterations ≤ 3 ∧
    (run_agent_loop state selected_agent plan0 criticL reviser).1.iterations =
      (run_agent_loop state selected_agent plan0 criticL reviser).2.length ∧
    ((run_agent_loop state selected_agent plan0 criticL reviser).1.iterations = 3 ∨
      ((run_agent_loop state selected_agent plan0 criticL reviser).1.critic_rule_ok = true ∧
       (run_agent_loop state selected_agent plan0 criticL reviser).1.critic_llm_ok = true)) ∧
    (run_agent_loop state selected_agent plan0 criticL reviser).1.critic_rule_ok =
      (critic_rule (resultPlan (run_agent_loop state selected_agent plan0 criticL reviser).1)
        selected_agent).ok ∧
    (run_agent_loop state selected_agent plan0 criticL reviser).1.critic_rule_issues =
      (critic_rule (resultPlan (run_agent_loop state selected_agent plan0 criticL reviser).1)
        selected_agent).issues ∧
    (run_agent_loop state selected_agent plan0 criticL reviser).1.critic_llm_ok =
      (criticL (run_agent_loop state selected_agent plan0 criticL reviser).1.iterations
        (resultPlan (run_agent_loop state selected_agent plan0 criticL reviser).1)).ok ∧
    (run_agent_loop state selected_agent plan0 criticL reviser).1.critic_llm_issues =
      (criticL (run_agent_loop state selected_agent plan0 criticL reviser).1.iterations
        (resultPlan (run_agent_loop state selected_agent plan0 criticL reviser).1)).issues := by
  obtain ⟨i1, i2, i3, i4, i5⟩ := agentLoopGo_invariant selected_agent criticL reviser
    MAX_ITERS plan0 (criticL 0 plan0)
    (mergeIssues (critic_rule plan0 selected_agent).issues (criticL 0 plan0).issues)
    0 [] rfl rfl rfl
  refine ⟨i1, i2, i3, ?_, ?_, ?_, ?_⟩
  · exact congrArg VerdictL.ok i4
  · exact congrArg VerdictL.issues i4
  · exact congrArg VerdictL.ok i5
  · exact congrArg VerdictL.issues i5

/-- A tagged merged step (the dicts built in `merge_goal_plans_round_robin`,
main.py lines 482-490). -/
structure TStep where
  goal_id : String
  goal_title : String
  title : String
  minutes : Int
  details : String
deriving DecidableEq, Repr

/-- A raw per-goal step (`gp["result"]["steps"]` entries). -/
structure RawGoalStep where
  title : Option String := none
  minutes : Option Int := none
  details : Option String := none
deriving DecidableEq, Repr

/-- One element of the `goal_plans` input:
`{"goal": {"id", "title"}, "result": {"steps": [...]}}`. -/
structure GoalPlanInput where
  goal_id : String
  goal_title : Option String := none
  steps : List RawGoalStep
deriving DecidableEq, Repr

/-- Python's falsy-`or` for strings: `s or d` with `""` falsy. -/
def orStr (o : Option String) (d : String) : String :=
  match o with
  | some s => if s = "" then d else s
  | none => d

/-- Python's falsy-`or` for ints: `v or d` with `0` falsy. -/
def orInt (o : Option Int) (d : Int) : Int :=
  match o with
  | some v => if v = 0 then d else v
  | none => d

/-- Python list slicing `l[:cap]` for an `int` cap (negative caps drop
elements from the end, clamped at the empty list). -/
def pySliceTo {α : Type} (cap : Int) (l : List α) : List α :=
  l.take (if cap < 0 then ((l.length : Int) + cap).toNat else cap.toNat)

/-- Bucket construction (main.py lines 478-491): per-goal steps truncated to
`per_goal_step_cap` and tagged with the goal. -/
def mkBuckets (goal_plans : List GoalPlanInput) (per_goal_step_cap : Int) :
    List (List TStep) :=
  goal_plans.map (fun gp =>
    (pySliceTo per_goal_step_cap gp.steps).map (fun s =>
      { goal_id := gp.goal_id
        goal_title := orStr gp.goal_title "Goal"
        title := orStr s.title "Task"
        minutes := orInt s.minutes 25
        details := s.details.getD "" }))

/-- One round-robin pass over the buckets at index `idx` (the `for b in
buckets` body, main.py lines 500-509): a bucket with a step at `idx` sets
`progressed`, the step is appended only if it fits the minute budget, and
the pass breaks early once `hard_max_steps` is reached. -/
def rrPass (idx : Nat) (hard_max_steps max_total_minutes : Int) :
    List (List TStep) → List TStep → Int → Bool → List TStep × Int × Bool
  | [], merged, total, progressed => (merged, total, progressed)
  | b :: rest, merged, total, progressed =>
    if h : idx < b.length then
      let candidate := b.get ⟨idx, h⟩
      let m := candidate.minutes
      let next :=
        if total + m ≤ max_total_minutes then (merged ++ [candidate], total + m)
        else (merged, total)
      if (next.1.length : Int) ≥ hard_max_steps then (next.1, next.2, true)
      else rrPass idx hard_max_steps max_total_minutes rest next.1 next.2 true
    else rrPass idx hard_max_steps max_total_minutes rest merged total progressed

/-- The `while len(merged) < hard_max_steps` loop (main.py lines 497-512):
run a pass; stop if it did not progress (no bucket had a step at `idx`),
else advance `idx`.  `fuel` bounds the outer iterations; any fuel at least
the longest bucket length plus one reaches the loop's own exit. -/
def rrLoop (hard_max_steps max_total_minutes : Int) (buckets : List (List TStep)) :
    Nat → Nat → List TStep → Int → List TStep × Int
  | 0, _, merged, total => (merged, total)
  | fuel + 1, idx, merged, total =>
    if (merged.length : Int) < hard_max_steps then
      let p := rrPass idx hard_max_steps max_total_minutes buckets merged total false
      if p.2.2 then rrLoop hard_max_steps max_total_minutes buckets fuel (idx + 1) p.1 p.2.1
      else (p.1, p.2.1)
    else (merged, total)

/-- Longest bucket length. -/
def maxBucketLen (buckets : List (List TStep)) : Nat :=
  (buckets.map List.length).foldr max 0

/-- `merge_goal_plans_round_robin(goal_plans, per_goal_step_cap,
max_total_minutes, hard_max_steps)` (main.py lines 461-519), returning the
`steps` and `total_minutes` of the result dict (the `summary` string is
presentation only and not modelled). -/
def merge_goal_plans_round_robin (goal_plans : List GoalPlanInput)
    (per_goal_step_cap max_total_minutes hard_max_steps : Int) :
    List TStep × Int :=
  let buckets := mkBuckets goal_plans per_goal_step_cap
  rrLoop hard_max_steps max_total_minutes buckets (maxBucketLen buckets + 1) 0 [] 0

/-- Goal A of the spec's merger example: steps of 25 and 30 minutes. -/
def goalPlanA : GoalPlanInput :=
  { goal_id := "A", goal_title := some "Goal A",
    steps := [{ title := some "A1", minutes := some 25, details := some "a1" },
              { title := some "A2", minutes := some 30, details := some "a2" }] }

/-- Goal B of the spec's merger example: steps of 10 and 15 minutes. -/
def goalPlanB : GoalPlanInput :=
  { goal_id := "B", goal_title := some "Goal B",
    steps := [{ title := some "B1", minutes := some 10, details := some "b1" },
              { title := some "B2", minutes := some 15, details := some "b2" }] }

/-- **C8**: on goals A (25, 30 min) and B (10, 15 min) with per-goal cap 2,
budget 60 and hard max 10, the merger returns exactly
`[A1(25), B1(10), B2(15)]` with `total_minutes = 50` — A2 is rejected
because 35 + 30 = 65 > 60. -/
theorem merge_round_robin_example :
    merge_goal_plans_round_robin [goalPlanA, goalPlanB] 2 60 10 =
      ([{ goal_id := "A", goal_title := "Goal A", title := "A1", minutes := 25,
          details := "a1" },
        { goal_id := "B", goal_title := "Goal B", title := "B1", minutes := 10,
          details := "b1" },
        { goal_id := "B", goal_title := "Goal B", title := "B2", minutes := 15,
          details := "b2" }], 50) := by
  rfl

lemma rrPass_invariant (idx : Nat) (hm mt : Int) :
    ∀ (bs : List (List TStep)) (merged : List TStep) (total : Int) (prog : Bool),
      (merged.length : Int) < hm → total ≤ mt →
      ((rrPass idx hm mt bs merged total prog).1.length : Int) ≤ hm ∧
      (rrPass idx hm mt bs merged total prog).2.1 ≤ mt := by
  intro bs
  induction bs with
  | nil =>
    intro merged total prog hlen htot
    exact ⟨by simpa [rrPass] using le_of_lt hlen, by simpa [rrPass] using htot⟩
  | cons b rest ih =>
    intro merged total prog hlen htot
    by_cases hidx : idx < b.length
    · simp only [rrPass, dif_pos hidx]
      by_cases hfit : total + (b.get ⟨idx, hidx⟩).minutes ≤ mt
      · simp only [if_pos hfit]
        by_cases hbreak :
            (((merged ++ [b.get ⟨idx, hidx⟩]).length : Int) ≥ hm)
        · simp only [if_pos hbreak]
          constructor
          · simp only [List.length_append, List.length_singleton]
            push_cast
            omega
          · exact hfit
        · simp only [if_neg hbreak]
          apply ih
          · omega
          · exact hfit
      · simp only [if_neg hfit]
        by_cases hbreak : ((merged.length : Int) ≥ hm)
        · simp only [if_pos hbreak]
          exact ⟨by omega, htot⟩
        · simp only [if_neg hbreak]
          exact ih merged total true hlen htot
    · simp only [rrPass, dif_neg hidx]
      exact ih merged total prog hlen htot

lemma rrLoop_invariant (hm mt : Int) (buckets : List (List TStep)) :
    ∀ (fuel : Nat) (idx : Nat) (merged : List TStep) (total : Int),
      (merged.length : Int) ≤ hm → total ≤ mt →
      ((rrLoop hm mt buckets fuel idx merged total).1.length : Int) ≤ hm ∧
      (rrLoop hm mt buckets fuel idx merged total).2 ≤ mt := by
  intro fuel
  induction fuel with
  | zero =>
    intro idx merged total hlen htot
    exact ⟨by simpa [rrLoop] using hlen, by simpa [rrLoop] using htot⟩
  | succ n ih =>
    intro idx merged total hlen htot
    by_cases hrun : ((merged.length : Int) < hm)
    · simp only [rrLoop, if_pos hrun]
      obtain ⟨p1, p2⟩ := rrPass_invariant idx hm mt buckets merged total false hrun htot
      by_cases hprog :
          (rrPass idx hm mt buckets merged total false).2.2 = true
      · simp only [hprog, if_true]
        exact ih (idx + 1) _ _ p1 p2
      · rw [if_neg hprog]
        exact ⟨p1, p2⟩
    · simp only [rrLoop, if_neg hrun]
      exact ⟨hlen, htot⟩

lemma rrPass_no_step (idx : Nat) (hm mt : Int) :
    ∀ (bs : List (List TStep)) (merged : List TStep) (total : Int),
      (∀ b ∈ bs, b.length ≤ idx) →
      rrPass idx hm mt bs merged total false = (merged, total, false) := by
  intro bs
  induction bs with
  | nil => intro merged total _; rfl
  | cons b rest ih =>
    intro merged total hall
    have hb : ¬(idx < b.length) := by
      have := hall b (List.mem_cons_self b rest)
      omega
    simp only [rrPass, dif_neg hb]
    exact ih merged total (fun x hx => hall x (List.mem_cons_of_mem b hx))

/-- **C9 (amended)**: for every input and every non-negative hard step cap
and minute budget, the merger returns at most `hard_max_steps` steps and a
total never exceeding `max_total_minutes`; and a round-robin pass that
INSPECTS no step from any bucket (every bucket exhausted at the current
index) leaves the state unchanged and reports no progress, which is what
terminates the merge.  (A pass that inspects a step but appends nothing —
over-budget candidates — still counts as progress; see the
counterexample.) -/
theorem merge_round_robin_bounds (goal_plans : List GoalPlanInput)
    (cap mt hm : Int) (h1 : 0 ≤ hm) (h2 : 0 ≤ mt) :
    ((merge_goal_plans_round_robin goal_plans cap mt hm).1.length : Int) ≤ hm ∧
    (merge_goal_plans_round_robin goal_plans cap mt hm).2 ≤ mt ∧
    (∀ (idx : Nat) (merged : List TStep) (total : Int),
      (∀ b ∈ mkBuckets goal_plans cap, b.length ≤ idx) →
      rrPass idx hm mt (mkBuckets goal_plans cap) merged total false
        = (merged, total, false)) := by
  refine ⟨?_, ?_, ?_⟩
  · exact (rrLoop_invariant hm mt (mkBuckets goal_plans cap) _ 0 [] 0
      (by simpa using h1) h2).1
  · exact (rrLoop_invariant hm mt (mkBuckets goal_plans cap) _ 0 [] 0
      (by simpa using h1) h2).2
  · intro idx merged total hall
    exact rrPass_no_step idx hm mt (mkBuckets goal_plans cap) merged total hall

/-- Witness for the amended C9 at the spec's example inputs. -/
theorem merge_round_robin_bounds_witness :
    (0 : Int) ≤ 10 ∧ (0 : Int) ≤ 60 ∧
    ((merge_goal_plans_round_robin [goalPlanA, goalPlanB] 2 60 10).1.length : Int) ≤ 10 ∧
    (merge_goal_plans_round_robin [goalPlanA, goalPlanB] 2 60 10).2 ≤ 60 :=
  ⟨by decide, by decide,
    (merge_round_robin_bounds [goalPlanA, goalPlanB] 2 60 10 (by decide) (by decide)).1,
    (merge_round_robin_bounds [goalPlanA, goalPlanB] 2 60 10 (by decide) (by decide)).2.1⟩

/-- Modelled from the spec's words, for comparison with `rrPass`: identical
round-robin pass except that `progressed` records whether a step was
actually APPENDED ("a pass that appends nothing from any bucket terminates
the merge"), not merely inspected. -/
def rrPassSpecTermination (idx : Nat) (hard_max_steps max_total_minutes : Int) :
    List (List TStep) → List TStep → Int → Bool → List TStep × Int × Bool
  | [], merged, total, progressed => (merged, total, progressed)
  | b :: rest, merged, total, progressed =>
    if h : idx < b.length then
      let candidate := b.get ⟨idx, h⟩
      let m := candidate.minutes
      if total + m ≤ max_total_minutes then
        if ((merged ++ [candidate]).length : Int) ≥ hard_max_steps then
          (merged ++ [candidate], total + m, true)
        else
          rrPassSpecTermination idx hard_max_steps max_total_minutes rest
            (merged ++ [candidate]) (total + m) true
      else
        if ((merged.length : Int) ≥ hard_max_steps) then (merged, total, progressed)
        else rrPassSpecTermination idx hard_max_steps max_total_minutes rest
          merged total progressed
    else rrPassSpecTermination idx hard_max_steps max_total_minutes rest merged total progressed

/-- Modelled from the spec's words: the merge loop with the spec's
termination rule — stop as soon as a pass appends nothing. -/
def rrLoopSpecTermination (hard_max_steps max_total_minutes : Int)
    (buckets : List (List TStep)) :
    Nat → Nat → List TStep → Int → List TStep × Int
  | 0, _, merged, total => (merged, total)
  | fuel + 1, idx, merged, total =>
    if (merged.length : Int) < hard_max_steps then
      let p := rrPassSpecTermination idx hard_max_steps max_total_minutes buckets
        merged total false
      if p.2.2 then
        rrLoopSpecTermination hard_max_steps max_total_minutes buckets fuel
          (idx + 1) p.1 p.2.1
      else (p.1, p.2.1)
    else (merged, total)

/-- Modelled from the spec's words: `merge_goal_plans_round_robin` with the
spec's pass-termination rule, for the refinement comparison in the C9
counterexample. -/
def merge_goal_plans_spec_termination (goal_plans : List GoalPlanInput)
    (per_goal_step_cap max_total_minutes hard_max_steps : Int) :
    List TStep × Int :=
  let buckets := mkBuckets goal_plans per_goal_step_cap
  rrLoopSpecTermination hard_max_steps max_total_minutes buckets
    (maxBucketLen buckets + 1) 0 [] 0

/-- A single goal whose first step (100 min) exceeds the 60-minute budget
while its second step (10 min) fits. -/
def goalPlanOverBudget : GoalPlanInput :=
  { goal_id := "G", goal_title := some "G",
    steps := [{ title := some "S1", minutes := some 100, details := some "s1" },
              { title := some "S2", minutes := some 10, details := some "s2" }] }

/-- Counterexample to **C9**: on `goalPlanOverBudget` (cap 2, budget 60,
hard max 10) the first round-robin pass appends nothing — S1 is over
budget — yet the merge does NOT terminate: the source sets `progressed`
whenever a bucket still has a step at the current index, appends S2 in the
next pass, and returns `([S2], 10)`.  Under the claim's termination rule
("a pass that appends no step from any bucket terminates the merge") the
result would be `([], 0)`. -/
theorem merge_pass_termination_counterexample :
    (merge_goal_plans_round_robin [goalPlanOverBudget] 2 60 10).1.map TStep.title
      = ["S2"] ∧
    (merge_goal_plans_spec_termination [goalPlanOverBudget] 2 60 10).1 = [] ∧
    merge_goal_plans_round_robin [goalPlanOverBudget] 2 60 10
      ≠ merge_goal_plans_spec_termination [goalPlanOverBudget] 2 60 10 := by
  refine ⟨by rfl, by rfl, by decide⟩

/-- A calendar event as returned by the listing collaborator
(`google_list_events_in_range`): the summary string and the parsed
start/end minutes (`none` models an entry `_parse_google_event_dt` raises
on, which the builder skips). -/
structure GEvent where
  summary : Option String := none
  start : Option Int := none
  stop : Option Int := none
deriving DecidableEq, Repr

/-- The last-interval-merging fold of `_get_non_commitai_busy_intervals`
(main.py lines 448-453), with the accumulator kept reversed so the
"modify `merged[-1]`" step is a head update. -/
def mergeIntervalsAux : List (Int × Int) → List (Int × Int) → List (Int × Int)
  | acc, [] => acc.reverse
  | [], iv :: rest => mergeIntervalsAux [iv] rest
  | last :: accTail, iv :: rest =>
    if iv.1 > last.2 then mergeIntervalsAux (iv :: last :: accTail) rest
    else mergeIntervalsAux ((last.1, max last.2 iv.2) :: accTail) rest

def mergeIntervals (l : List (Int × Int)) : List (Int × Int) :=
  mergeIntervalsAux [] l

/-- `_get_non_commitai_busy_intervals` (main.py lines 394-455).  The listing
collaborator call is the `events` argument: `.error` models
`google_list_events_in_range` raising (caught at lines 407-415), `.ok`
its result.  Remaining per-event steps: skip events whose trimmed summary
lower-cases to start with `commitai:`, skip unparseable times, pad by the
buffer on both sides, keep only non-empty intervals, sort by start, and
merge overlapping-or-touching intervals. -/
def _get_non_commitai_busy_intervals (events : Except String (List GEvent))
    (buffer_minutes : Int) : List (Int × Int) :=
  match events with
  | Except.error _ => []
  | Except.ok evs =>
    let busy := evs.filterMap (fun e =>
      let summary := pyStrip (e.summary.getD "")
      if pyStartsWith (pyLower summary) "commitai:" then none
      else
        match e.start, e.stop with
        | some st, some en =>
          let st1 := st - buffer_minutes
          let en1 := en + buffer_minutes
          if en1 > st1 then some (st1, en1) else none
        | _, _ => none)
    mergeIntervals (List.insertionSort (fun a b : Int × Int => a.1 ≤ b.1) busy)

/-- **C10**: when the calendar listing call raises, the busy-interval
builder returns the empty interval list instead of propagating the failure
— scheduling then proceeds as if no external time were busy. -/
theorem busy_intervals_empty_on_unreachable_calendar (e : String)
    (buffer_minutes : Int) :
    _get_non_commitai_busy_intervals (Except.error e) buffer_minutes = [] := by
  rfl
